import Mathlib

/-!
Formal model of the ECIES module of fastcrypto-tbls (ecies_v0.rs): simple
ECIES encryption over a generic group with AES-256 in counter mode, batched
multi-recipient encryption carrying one discrete-log NIZK, and the verifiable
recovery-package protocol.  The module is generic over the group; its external
collaborators (the group and scalar algebra, bcs serialization, hkdf_sha3_256,
Aes256Ctr, the RandomOracle, and the two NIZK proof systems of nizk.rs) are
not part of the sources and are modelled abstractly from the interfaces the
design spec documents for them.
-/

namespace Ecies

/-- Bytes of a Rust Vec of u8 are modelled as natural numbers (source values
are 0..255; the only operation applied to them here, bitwise xor, preserves
that range). -/
abbrev Byte := Nat

/-- Modelled from the spec: the error taxonomy of fastcrypto's FastCryptoError,
restricted to the two kinds the spec names for this module: invalid-input and
verification failure. -/
inductive FastCryptoError where
  | InvalidInput : FastCryptoError
  | InvalidProof : FastCryptoError
deriving DecidableEq

/-- Modelled from the spec: AES_KEY_LENGTH of ecies.rs, the 32-byte output
size requested from the key-derivation function (the symmetric cipher's key
size). -/
def AES_KEY_LENGTH : Nat := 32

/-- Big-endian bytes of a Rust usize (usize::to_be_bytes): eight bytes, most
significant first. -/
def usizeToBeBytes (n : Nat) : List Byte :=
  (List.range 8).map (fun i => n / 256 ^ (7 - i) % 256)

/-- Modelled from the spec: the external collaborator interfaces the module
consumes (spec section 6).  G is the group element type, S the scalar type,
RO the random-oracle instance type.
  * gen and smul: the group generator and scalar multiplication (Rust writes
    scalar multiplication as element * scalar);
  * serG: canonical (bcs) serialization of a group element;
  * serVecs: canonical (bcs) serialization of a list of byte buffers;
  * kdf: hkdf_sha3_256 with arguments ikm, salt, info, output length (total
    here: the source asserts it never fails for a 32-byte output);
  * ksByte: the Aes256Ctr keystream, as the byte it produces for a given key
    and nonce at a given stream index. -/
structure Externals (G S RO : Type) where
  gen : G
  smul : G → S → G
  serG : G → List Byte
  serVecs : List (List Byte) → List Byte
  kdf : List Byte → List Byte → List Byte → Nat → List Byte
  ksByte : List Byte → List Byte → Nat → Byte

variable {G S RO : Type}

/-- Modelled from the spec: the first len bytes of the Aes256Ctr keystream for
a given key and nonce. -/
def keystream (P : Externals G S RO) (key nonce : List Byte) (len : Nat) : List Byte :=
  (List.range len).map (P.ksByte key nonce)

/-- Modelled from the spec: Cipher::encrypt of Aes256Ctr, a pure keystream XOR
of the plaintext with the keystream of (key, nonce). -/
def ctrEncrypt (P : Externals G S RO) (key nonce msg : List Byte) : List Byte :=
  List.zipWith (fun a b => a ^^^ b) msg (keystream P key nonce msg.length)

/-- Modelled from the spec: Cipher::decrypt of Aes256Ctr: the same keystream
XOR.  It returns a Result that never fails for CTR mode; the failure case is
the none of the Option and never occurs. -/
def ctrDecrypt (P : Externals G S RO) (key nonce ct : List Byte) : Option (List Byte) :=
  some (List.zipWith (fun a b => a ^^^ b) ct (keystream P key nonce ct.length))

/-- Modelled from the spec: PrivateKey of ecies.rs, a single secret scalar. -/
structure PrivateKey (S : Type) where
  sc : S

/-- Modelled from the spec: PublicKey of ecies.rs, a single group element. -/
structure PublicKey (G : Type) where
  pt : G

/-- Encryption of ecies_v0.rs: a single-recipient hybrid ciphertext. -/
structure Encryption (G : Type) where
  ephemeral_key : G
  data : List Byte
  hkdf_info : Nat
deriving DecidableEq

/-- Modelled from the spec: the discrete-log knowledge NIZK of nizk.rs as an
ideal proof system.  create records the statement (the public point and the
bound auxiliary bytes), the random-oracle instance, and whether the witness
really is the discrete log; verify succeeds exactly when the recorded
statement and oracle match the ones offered and the witness was valid.  The
randomness the Rust prover draws does not affect which statements verify, so
it is not modelled. -/
structure DLNizk (G RO : Type) where
  point : G
  aux : List Byte
  ro : RO
  valid : Bool
deriving DecidableEq

/-- Modelled from the spec: DLNizk::create(x, x_g, aux, ro, rng). -/
def DLNizk.create [DecidableEq G] (P : Externals G S RO) (x : S) (x_g : G)
    (aux : List Byte) (ro : RO) : DLNizk G RO :=
  { point := x_g, aux := aux, ro := ro, valid := decide (x_g = P.smul P.gen x) }

/-- Modelled from the spec: DLNizk::verify(x_g, aux, ro).  The spec fixes the
error this check surfaces through MultiRecipientEncryption::verify to be the
invalid-input error. -/
def DLNizk.verify [DecidableEq G] [DecidableEq RO] (pf : DLNizk G RO) (x_g : G)
    (aux : List Byte) (ro : RO) : Except FastCryptoError Unit :=
  if pf.point = x_g ∧ pf.aux = aux ∧ pf.ro = ro ∧ pf.valid then Except.ok ()
  else Except.error FastCryptoError.InvalidInput

/-- Modelled from the spec: the DDH-tuple NIZK of nizk.rs as an ideal proof
system: create(x, a, b, c, ro, rng) records the statement (a, b, c), the
random-oracle instance, and whether the witness is valid, that is b = x·G and
c = x·a; verify(a, b, c, ro) succeeds exactly when the recorded statement and
oracle match the ones offered and the witness was valid. -/
structure DdhTupleNizk (G RO : Type) where
  a : G
  b : G
  c : G
  ro : RO
  valid : Bool
deriving DecidableEq

/-- Modelled from the spec: DdhTupleNizk::create(x, a, b, c, ro, rng). -/
def DdhTupleNizk.create [DecidableEq G] (P : Externals G S RO) (x : S) (a b c : G)
    (ro : RO) : DdhTupleNizk G RO :=
  { a := a, b := b, c := c, ro := ro,
    valid := decide (b = P.smul P.gen x ∧ c = P.smul a x) }

/-- Modelled from the spec: DdhTupleNizk::verify(a, b, c, ro); a failed check
is the verification-failure error. -/
def DdhTupleNizk.verify [DecidableEq G] [DecidableEq RO] (pf : DdhTupleNizk G RO)
    (a b c : G) (ro : RO) : Except FastCryptoError Unit :=
  if pf.a = a ∧ pf.b = b ∧ pf.c = c ∧ pf.ro = ro ∧ pf.valid then Except.ok ()
  else Except.error FastCryptoError.InvalidProof

/-- Modelled from the spec: RecoveryPackage of ecies.rs: the partially
decrypted ephemeral key together with a DDH-tuple proof. -/
structure RecoveryPackage (G RO : Type) where
  ephemeral_key : G
  proof : DdhTupleNizk G RO

/-- MultiRecipientEncryption of ecies_v0.rs: the shared ephemeral element
(field 0 of the Rust tuple struct), the ciphertext buffers (field 1) and the
discrete-log proof (field 2). -/
structure MultiRecipientEncryption (G RO : Type) where
  r_g : G
  encs : List (List Byte)
  nizk : DLNizk G RO

/-- Encryption::hkdf: ikm is the bcs serialization of the group element, the
salt is empty, the context info is the big-endian bytes of the usize, and the
output length is AES_KEY_LENGTH. -/
def Encryption.hkdf (P : Externals G S RO) (ikm : G) (info : Nat) : List Byte :=
  P.kdf (P.serG ikm) [] (usizeToBeBytes info) AES_KEY_LENGTH

/-- Encryption::fixed_zero_nonce: a 16-byte all-zero initialization vector. -/
def Encryption.fixed_zero_nonce : List Byte :=
  List.replicate 16 0

/-- Encryption::deterministic_encrypt(msg, r_g, r_x_g, hkdf_info): encrypt msg
under the key hkdf(r_x_g, hkdf_info) with the fixed zero nonce (the Rust
sym_encrypt), and package it with the ephemeral key r_g and the info. -/
def Encryption.deterministic_encrypt (P : Externals G S RO) (msg : List Byte)
    (r_g r_x_g : G) (hkdf_info : Nat) : Encryption G :=
  { ephemeral_key := r_g
    data := ctrEncrypt P (Encryption.hkdf P r_x_g hkdf_info) Encryption.fixed_zero_nonce msg
    hkdf_info := hkdf_info }

/-- Encryption::decrypt_from_partial_decryption: re-derive the symmetric key
from the offered partial key and the stored info, then decrypt.  The none case
models the expect-panic on the cipher's failure branch, which never fires. -/
def Encryption.decrypt_from_partial_decryption (P : Externals G S RO)
    (enc : Encryption G) (partial_key : G) : Option (List Byte) :=
  ctrDecrypt P (Encryption.hkdf P partial_key enc.hkdf_info)
    Encryption.fixed_zero_nonce enc.data

/-- Encryption::decrypt(sk): partial key is ephemeral_key * sk. -/
def Encryption.decrypt (P : Externals G S RO) (enc : Encryption G) (sk : S) :
    Option (List Byte) :=
  enc.decrypt_from_partial_decryption P (P.smul enc.ephemeral_key sk)

/-- PrivateKey::decrypt. -/
def PrivateKey.decrypt (P : Externals G S RO) (sk : PrivateKey S) (enc : Encryption G) :
    Option (List Byte) :=
  enc.decrypt P sk.sc

/-- PublicKey::from_private_key. -/
def PublicKey.from_private_key (P : Externals G S RO) (sk : PrivateKey S) : PublicKey G :=
  { pt := P.smul P.gen sk.sc }

/-- PublicKey::deterministic_encrypt, a delegation to the Encryption one. -/
def PublicKey.deterministic_encrypt (P : Externals G S RO) (msg : List Byte)
    (r_g r_x_g : G) (info : Nat) : Encryption G :=
  Encryption.deterministic_encrypt P msg r_g r_x_g info

/-- PrivateKey::create_recovery_package: the partially decrypted ephemeral key
enc.ephemeral_key * sk with a DDH-tuple proof for
(enc.ephemeral_key, sk·G, enc.ephemeral_key * sk) under the offered oracle. -/
def PrivateKey.create_recovery_package [DecidableEq G] (P : Externals G S RO)
    (sk : PrivateKey S) (enc : Encryption G) (ro : RO) : RecoveryPackage G RO :=
  { ephemeral_key := P.smul enc.ephemeral_key sk.sc
    proof := DdhTupleNizk.create P sk.sc enc.ephemeral_key (P.smul P.gen sk.sc)
      (P.smul enc.ephemeral_key sk.sc) ro }

/-- PublicKey::decrypt_with_recovery_package: verify the package's proof over
(enc.ephemeral_key, pk, pkg.ephemeral_key) and on success decrypt from the
package's partial key. -/
def PublicKey.decrypt_with_recovery_package [DecidableEq G] [DecidableEq RO]
    (P : Externals G S RO) (pk : PublicKey G) (pkg : RecoveryPackage G RO)
    (ro : RO) (enc : Encryption G) : Except FastCryptoError (Option (List Byte)) :=
  (pkg.proof.verify enc.ephemeral_key pk.pt pkg.ephemeral_key ro).map
    (fun _ => enc.decrypt_from_partial_decryption P pkg.ephemeral_key)

/-- MultiRecipientEncryption::encrypt: one ephemeral scalar r (the sample the
Rust rng draws, here an explicit argument), r_g = r·G, per-recipient
ciphertexts derived with info = the recipient's index, and a discrete-log
proof for r_g bound to the serialized ciphertext list. -/
def MultiRecipientEncryption.encrypt [DecidableEq G] (P : Externals G S RO)
    (pk_and_msgs : List (PublicKey G × List Byte)) (ro : RO) (r : S) :
    MultiRecipientEncryption G RO :=
  let r_g := P.smul P.gen r
  let encs := pk_and_msgs.enum.map (fun p =>
    (Encryption.deterministic_encrypt P p.2.2 r_g (P.smul p.2.1.pt r) p.1).data)
  let encs_bytes := P.serVecs encs
  { r_g := r_g, encs := encs, nizk := DLNizk.create P r r_g encs_bytes ro }

/-- MultiRecipientEncryption::get_encryption(i): the i-th buffer as a
standalone Encryption, or an invalid-input error when i is out of range. -/
def MultiRecipientEncryption.get_encryption (mre : MultiRecipientEncryption G RO)
    (i : Nat) : Except FastCryptoError (Encryption G) :=
  match mre.encs[i]? with
  | some buffer => Except.ok { ephemeral_key := mre.r_g, data := buffer, hkdf_info := i }
  | none => Except.error FastCryptoError.InvalidInput

/-- MultiRecipientEncryption::len. -/
def MultiRecipientEncryption.len (mre : MultiRecipientEncryption G RO) : Nat :=
  mre.encs.length

/-- MultiRecipientEncryption::is_empty. -/
def MultiRecipientEncryption.is_empty (mre : MultiRecipientEncryption G RO) : Bool :=
  mre.encs.isEmpty

/-- MultiRecipientEncryption::verify(ro): check the discrete-log proof against
r_g bound to the serialized ciphertext list, then require every ciphertext to
be non-empty. -/
def MultiRecipientEncryption.verify [DecidableEq G] [DecidableEq RO]
    (P : Externals G S RO) (mre : MultiRecipientEncryption G RO) (ro : RO) :
    Except FastCryptoError Unit :=
  (mre.nizk.verify mre.r_g (P.serVecs mre.encs) ro).bind (fun _ =>
    if mre.encs.all (fun e => !e.isEmpty) then Except.ok ()
    else Except.error FastCryptoError.InvalidInput)

/-- The law of the external group algebra the round-trip facts rest on: acting
on the generator first by one scalar and then by the other commutes, the
Diffie-Hellman agreement (x·G)·r = (r·G)·x. -/
def Externals.Lawful (P : Externals G S RO) : Prop :=
  ∀ a b : S, P.smul (P.smul P.gen a) b = P.smul (P.smul P.gen b) a

/-- A concrete instantiation of the external interfaces used to evaluate the
theorems on explicit inputs: the group and scalars are Fin 5 with
multiplication as the scalar action and 2 as generator, the oracle instances
are naturals, and serialization, kdf and keystream are simple concrete
functions. -/
def concreteExternals : Externals (Fin 5) (Fin 5) Nat :=
  { gen := 2
    smul := fun g s => g * s
    serG := fun g => [g.val]
    serVecs := fun l => l.foldr (fun v acc => (v.length :: v) ++ acc) []
    kdf := fun ikm salt info len => ikm ++ salt ++ info ++ [len]
    ksByte := fun key _nonce i => (key.foldr (fun a b => a + b) 0 + i) % 256 }

theorem concreteExternals_lawful : concreteExternals.Lawful := by
  unfold Externals.Lawful
  decide

theorem keystream_length (P : Externals G S RO) (key nonce : List Byte) (n : Nat) :
    (keystream P key nonce n).length = n := by
  simp [keystream]

theorem ctrEncrypt_length (P : Externals G S RO) (key nonce msg : List Byte) :
    (ctrEncrypt P key nonce msg).length = msg.length := by
  simp [ctrEncrypt, keystream]

theorem zipWith_xor_cancel (msg : List Byte) : ∀ ks : List Byte, msg.length ≤ ks.length →
    List.zipWith (fun a b => a ^^^ b) (List.zipWith (fun a b => a ^^^ b) msg ks) ks = msg := by
  induction msg with
  | nil => intro ks _; simp
  | cons m ms ih =>
    intro ks h
    cases ks with
    | nil => simp at h
    | cons k ks =>
      simp only [List.zipWith_cons_cons]
      rw [Nat.xor_cancel_right, ih ks (by simpa using h)]

theorem ctr_roundtrip (P : Externals G S RO) (key nonce msg : List Byte) :
    ctrDecrypt P key nonce (ctrEncrypt P key nonce msg) = some msg := by
  unfold ctrDecrypt
  rw [ctrEncrypt_length]
  exact congrArg some
    (zipWith_xor_cancel msg _ (keystream_length P key nonce msg.length).ge)

/-- Decrypting from the very group element the symmetric key was derived from
recovers the plaintext, whatever that element is. -/
theorem partial_roundtrip (P : Externals G S RO) (msg : List Byte) (r_g k : G) (info : Nat) :
    (Encryption.deterministic_encrypt P msg r_g k info).decrypt_from_partial_decryption P k
      = some msg :=
  ctr_roundtrip P (Encryption.hkdf P k info) Encryption.fixed_zero_nonce msg

/-- C1: for every scalar x, every message m, and every ephemeral scalar r,
decrypting with PrivateKey x the Encryption produced by
deterministic_encrypt(m, r·G, (x·G)·r, info) returns exactly m. -/
theorem C1_single_recipient_round_trip (P : Externals G S RO) (hP : P.Lawful)
    (x r : S) (m : List Byte) (info : Nat) :
    (PrivateKey.mk x).decrypt P
        (Encryption.deterministic_encrypt P m (P.smul P.gen r)
          (P.smul (P.smul P.gen x) r) info)
      = some m := by
  show (Encryption.deterministic_encrypt P m (P.smul P.gen r)
      (P.smul (P.smul P.gen x) r) info).decrypt_from_partial_decryption P
      (P.smul (P.smul P.gen r) x) = some m
  rw [hP r x]
  exact partial_roundtrip P m (P.smul P.gen r) (P.smul (P.smul P.gen x) r) info

theorem C1_witness :
    concreteExternals.Lawful ∧
      (PrivateKey.mk 1).decrypt concreteExternals
          (Encryption.deterministic_encrypt concreteExternals [3, 200]
            (concreteExternals.smul concreteExternals.gen 2)
            (concreteExternals.smul (concreteExternals.smul concreteExternals.gen 1) 2) 7)
        = some [3, 200] :=
  ⟨concreteExternals_lawful,
    C1_single_recipient_round_trip concreteExternals concreteExternals_lawful 1 2 [3, 200] 7⟩

/-- C6: decryption is total and unauthenticated: the cipher decrypt always
returns a value (so the failure branch behind the expect in
decrypt_from_partial_decryption is unreachable) and
decrypt_from_partial_decryption returns a plaintext byte vector for every
encryption and every group element offered as partial key. -/
theorem C6_decrypt_total (P : Externals G S RO) :
    (∀ key nonce ct : List Byte, (ctrDecrypt P key nonce ct).isSome = true)
    ∧ ∀ (enc : Encryption G) (partial_key : G),
        (enc.decrypt_from_partial_decryption P partial_key).isSome = true :=
  ⟨fun _ _ _ => rfl, fun _ _ => rfl⟩

/-- C7: the ciphertext data produced by deterministic_encrypt has exactly the
byte length of the plaintext, for all inputs. -/
theorem C7_length_preservation (P : Externals G S RO) (msg : List Byte)
    (r_g r_x_g : G) (info : Nat) :
    (Encryption.deterministic_encrypt P msg r_g r_x_g info).data.length = msg.length :=
  ctrEncrypt_length P (Encryption.hkdf P r_x_g info) Encryption.fixed_zero_nonce msg

/-- C8: two calls of deterministic_encrypt on byte-identical inputs produce
byte-identical Encryption values, in particular byte-identical ciphertext
data. -/
theorem C8_determinism (P : Externals G S RO) (m₁ m₂ : List Byte) (g₁ g₂ k₁ k₂ : G)
    (i₁ i₂ : Nat) (hm : m₁ = m₂) (hg : g₁ = g₂) (hk : k₁ = k₂) (hi : i₁ = i₂) :
    Encryption.deterministic_encrypt P m₁ g₁ k₁ i₁
        = Encryption.deterministic_encrypt P m₂ g₂ k₂ i₂
    ∧ (Encryption.deterministic_encrypt P m₁ g₁ k₁ i₁).data
        = (Encryption.deterministic_encrypt P m₂ g₂ k₂ i₂).data := by
  subst hm; subst hg; subst hk; subst hi
  exact ⟨rfl, rfl⟩

theorem C8_witness :
    Encryption.deterministic_encrypt concreteExternals [5] 2 3 1
        = Encryption.deterministic_encrypt concreteExternals [5] 2 3 1
    ∧ (Encryption.deterministic_encrypt concreteExternals [5] 2 3 1).data
        = (Encryption.deterministic_encrypt concreteExternals [5] 2 3 1).data :=
  C8_determinism concreteExternals [5] [5] 2 2 3 3 1 1 rfl rfl rfl rfl

/-- C9: the symmetric key is derived with input-keying-material equal to the
canonical serialization of the shared group element, an empty salt, context
info equal to the big-endian bytes of the integer info and a 32-byte output,
and the cipher runs under the fixed all-zero 16-byte nonce, both when
encrypting and when re-deriving the key to decrypt. -/
theorem C9_key_derivation (P : Externals G S RO) (k r_g r_x_g : G) (info : Nat)
    (msg : List Byte) (enc : Encryption G) (partial_key : G) :
    Encryption.hkdf P k info = P.kdf (P.serG k) [] (usizeToBeBytes info) 32
    ∧ AES_KEY_LENGTH = 32
    ∧ Encryption.fixed_zero_nonce = List.replicate 16 0
    ∧ (Encryption.deterministic_encrypt P msg r_g r_x_g info).data
        = ctrEncrypt P (P.kdf (P.serG r_x_g) [] (usizeToBeBytes info) 32)
            (List.replicate 16 0) msg
    ∧ enc.decrypt_from_partial_decryption P partial_key
        = ctrDecrypt P (P.kdf (P.serG partial_key) [] (usizeToBeBytes enc.hkdf_info) 32)
            (List.replicate 16 0) enc.data :=
  ⟨rfl, rfl, rfl, rfl, rfl⟩

/-- C5: get_encryption(i) returns an invalid-input error exactly when i is at
or beyond the ciphertext list length, and otherwise the Encryption whose
ephemeral key is the batch's shared ephemeral element, whose data is the i-th
ciphertext buffer and whose hkdf_info is i. -/
theorem C5_get_encryption_spec (mre : MultiRecipientEncryption G RO) (i : Nat) :
    (mre.encs.length ≤ i →
        mre.get_encryption i = Except.error FastCryptoError.InvalidInput)
    ∧ ∀ h : i < mre.encs.length,
        mre.get_encryption i
          = Except.ok { ephemeral_key := mre.r_g, data := mre.encs[i], hkdf_info := i } := by
  constructor
  · intro h
    simp [MultiRecipientEncryption.get_encryption, List.getElem?_eq_none h]
  · intro h
    simp [MultiRecipientEncryption.get_encryption, List.getElem?_eq_getElem h]

/-- A concrete multi-recipient ciphertext used to evaluate the theorems on
explicit inputs. -/
def mreW : MultiRecipientEncryption (Fin 5) Nat :=
  { r_g := 2, encs := [[1], [2, 3]], nizk := { point := 2, aux := [], ro := 0, valid := true } }

theorem C5_witness :
    mreW.get_encryption 5 = Except.error FastCryptoError.InvalidInput
    ∧ mreW.get_encryption 1
        = Except.ok { ephemeral_key := mreW.r_g, data := [2, 3], hkdf_info := 1 } :=
  ⟨(C5_get_encryption_spec mreW 5).1 (by decide),
    (C5_get_encryption_spec mreW 1).2 (by decide)⟩

theorem encrypt_r_g [DecidableEq G] (P : Externals G S RO)
    (l : List (PublicKey G × List Byte)) (ro : RO) (r : S) :
    (MultiRecipientEncryption.encrypt P l ro r).r_g = P.smul P.gen r := rfl

theorem encrypt_encs_getElem? [DecidableEq G] (P : Externals G S RO)
    (l : List (PublicKey G × List Byte)) (ro : RO) (r : S) (i : Nat) :
    (MultiRecipientEncryption.encrypt P l ro r).encs[i]?
      = l[i]?.map (fun p =>
          (Encryption.deterministic_encrypt P p.2 (P.smul P.gen r)
            (P.smul p.1.pt r) i).data) := by
  simp only [MultiRecipientEncryption.encrypt, List.getElem?_map, List.getElem?_enum]
  cases l[i]? <;> rfl

theorem encrypt_nizk_verify_ok [DecidableEq G] [DecidableEq RO] (P : Externals G S RO)
    (l : List (PublicKey G × List Byte)) (ro : RO) (r : S) :
    ((MultiRecipientEncryption.encrypt P l ro r).nizk).verify
        (MultiRecipientEncryption.encrypt P l ro r).r_g
        (P.serVecs (MultiRecipientEncryption.encrypt P l ro r).encs) ro
      = Except.ok () := by
  simp [MultiRecipientEncryption.encrypt, DLNizk.create, DLNizk.verify]

theorem verify_of_nizk_ok [DecidableEq G] [DecidableEq RO] (P : Externals G S RO)
    (mre : MultiRecipientEncryption G RO) (ro : RO)
    (h : mre.nizk.verify mre.r_g (P.serVecs mre.encs) ro = Except.ok ()) :
    mre.verify P ro
      = if mre.encs.all (fun e => !e.isEmpty) then Except.ok ()
        else Except.error FastCryptoError.InvalidInput := by
  unfold MultiRecipientEncryption.verify
  rw [h]
  rfl

theorem not_isEmpty_of_length_ne_zero {l : List Byte} (h : l.length ≠ 0) :
    (!l.isEmpty) = true := by
  cases l with
  | nil => simp at h
  | cons a t => rfl

/-- C4 (amended): verify succeeds on every honestly constructed
MultiRecipientEncryption whose plaintexts are all non-empty, and returns the
invalid-input error whenever the discrete-log proof check over the transcript
bound to the serialized ciphertext list fails or some ciphertext entry in the
list is empty. -/
theorem C4_verify_spec [DecidableEq G] [DecidableEq RO] (P : Externals G S RO) :
    (∀ (l : List (PublicKey G × List Byte)) (ro : RO) (r : S),
        (∀ p ∈ l, p.2 ≠ []) →
          (MultiRecipientEncryption.encrypt P l ro r).verify P ro = Except.ok ())
    ∧ ∀ (mre : MultiRecipientEncryption G RO) (ro : RO),
        (mre.nizk.verify mre.r_g (P.serVecs mre.encs) ro ≠ Except.ok ()
            ∨ ∃ e ∈ mre.encs, e = []) →
          mre.verify P ro = Except.error FastCryptoError.InvalidInput := by
  constructor
  · intro l ro r hne
    rw [verify_of_nizk_ok P _ ro (encrypt_nizk_verify_ok P l ro r), if_pos]
    rw [List.all_eq_true]
    intro e he
    rcases List.mem_iff_getElem?.1 he with ⟨i, hi⟩
    rw [encrypt_encs_getElem?] at hi
    cases hl : l[i]? with
    | none => rw [hl] at hi; exact absurd hi (by simp)
    | some p =>
      rw [hl] at hi
      have hi' : (Encryption.deterministic_encrypt P p.2 (P.smul P.gen r)
          (P.smul p.1.pt r) i).data = e := by simpa using hi
      have hlen : e.length = p.2.length := by
        rw [← hi']
        exact ctrEncrypt_length P _ _ p.2
      refine not_isEmpty_of_length_ne_zero ?_
      rw [hlen]
      intro h0
      exact hne p (List.getElem?_mem hl) (List.length_eq_zero.1 h0)
  · intro mre ro h
    cases hv : mre.nizk.verify mre.r_g (P.serVecs mre.encs) ro with
    | error e =>
      have he : e = FastCryptoError.InvalidInput := by
        unfold DLNizk.verify at hv
        split at hv
        · exact Except.noConfusion hv
        · injection hv with h2
          exact h2.symm
      unfold MultiRecipientEncryption.verify
      rw [hv, he]
      rfl
    | ok u =>
      cases u
      rcases h with h | ⟨e, he, rfl⟩
      · exact absurd hv h
      · rw [verify_of_nizk_ok P mre ro hv, if_neg]
        intro hall
        have := List.all_eq_true.1 hall [] he
        simp at this

/-- C4 counterexample: an honestly constructed batch that contains an empty
plaintext is rejected by verify, so verify does not succeed on every honestly
constructed MultiRecipientEncryption. -/
theorem C4_counterexample :
    (MultiRecipientEncryption.encrypt concreteExternals [(PublicKey.mk 2, [])] 0 1).verify
        concreteExternals 0
      = Except.error FastCryptoError.InvalidInput := by
  rfl

/-- A concrete multi-recipient ciphertext with an empty buffer, used to
evaluate the verify theorem on an explicit input. -/
def mreX : MultiRecipientEncryption (Fin 5) Nat :=
  { r_g := 2, encs := [[]], nizk := { point := 2, aux := [], ro := 0, valid := true } }

theorem C4_witness :
    (MultiRecipientEncryption.encrypt concreteExternals [(PublicKey.mk 2, [3])] 0 1).verify
        concreteExternals 0 = Except.ok ()
    ∧ mreX.verify concreteExternals 0 = Except.error FastCryptoError.InvalidInput :=
  ⟨(C4_verify_spec concreteExternals).1 [(PublicKey.mk 2, [3])] 0 1 (by decide),
    (C4_verify_spec concreteExternals).2 mreX 0 (Or.inr ⟨[], by decide, rfl⟩)⟩

/-- C10: an empty plaintext given to MultiRecipientEncryption::encrypt yields
an empty ciphertext buffer at the same index, so verify rejects that honestly
constructed batch with the invalid-input error; a batch of zero recipients
passes the non-emptiness check vacuously, so its honest verify succeeds. -/
theorem C10_empty_edge_cases [DecidableEq G] [DecidableEq RO] (P : Externals G S RO) :
    (∀ (l : List (PublicKey G × List Byte)) (ro : RO) (r : S) (i : Nat)
        (hi : i < l.length), l[i].2 = [] →
        (MultiRecipientEncryption.encrypt P l ro r).encs[i]? = some []
          ∧ (MultiRecipientEncryption.encrypt P l ro r).verify P ro
              = Except.error FastCryptoError.InvalidInput)
    ∧ ∀ (ro : RO) (r : S),
        (MultiRecipientEncryption.encrypt P ([] : List (PublicKey G × List Byte)) ro r).verify
            P ro
          = Except.ok () := by
  constructor
  · intro l ro r i hi he
    have hget : (MultiRecipientEncryption.encrypt P l ro r).encs[i]? = some [] := by
      rw [encrypt_encs_getElem?, List.getElem?_eq_getElem hi]
      simp [he, Encryption.deterministic_encrypt, ctrEncrypt]
    refine ⟨hget, ?_⟩
    rw [verify_of_nizk_ok P _ ro (encrypt_nizk_verify_ok P l ro r), if_neg]
    intro hall
    have := List.all_eq_true.1 hall [] (List.getElem?_mem hget)
    simp at this
  · intro ro r
    rw [verify_of_nizk_ok P _ ro (encrypt_nizk_verify_ok P [] ro r)]
    rfl

theorem C10_witness :
    (MultiRecipientEncryption.encrypt concreteExternals [(PublicKey.mk 2, [])] 0 1).encs[0]?
        = some []
    ∧ (MultiRecipientEncryption.encrypt concreteExternals [(PublicKey.mk 2, [])] 0 1).verify
          concreteExternals 0
        = Except.error FastCryptoError.InvalidInput
    ∧ (MultiRecipientEncryption.encrypt concreteExternals
          ([] : List (PublicKey (Fin 5) × List Byte)) 0 1).verify concreteExternals 0
        = Except.ok () :=
  ⟨((C10_empty_edge_cases concreteExternals).1 [(PublicKey.mk 2, [])] 0 1 0 (by decide) rfl).1,
    ((C10_empty_edge_cases concreteExternals).1 [(PublicKey.mk 2, [])] 0 1 0 (by decide) rfl).2,
    (C10_empty_edge_cases concreteExternals).2 0 1⟩

/-- C2: for every list of N key pairs and N messages given to
MultiRecipientEncryption::encrypt and every index i below N, extracting
get_encryption(i) and decrypting it with the i-th private key returns the i-th
plaintext. -/
theorem C2_multi_recipient_isolation [DecidableEq G] (P : Externals G S RO)
    (hP : P.Lawful) (sks : List S) (msgs : List (List Byte)) (ro : RO) (r : S)
    (i : Nat) (hi : i < sks.length) (hlen : sks.length = msgs.length) :
    ((MultiRecipientEncryption.encrypt P
          (List.zipWith (fun x m => (PublicKey.mk (P.smul P.gen x), m)) sks msgs) ro r
        ).get_encryption i).map
        (fun e => (PrivateKey.mk (sks.get ⟨i, hi⟩)).decrypt P e)
      = Except.ok (some (msgs.getD i [])) := by
  have him : i < msgs.length := hlen ▸ hi
  have hz : (List.zipWith (fun x m => (PublicKey.mk (P.smul P.gen x), m)) sks msgs)[i]?
      = some (PublicKey.mk (P.smul P.gen (sks.get ⟨i, hi⟩)), msgs.getD i []) := by
    rw [List.getElem?_zipWith, List.getElem?_eq_getElem hi, List.getElem?_eq_getElem him]
    simp [List.getD_eq_getElem?_getD, List.getElem?_eq_getElem him]
  have henc : (MultiRecipientEncryption.encrypt P
        (List.zipWith (fun x m => (PublicKey.mk (P.smul P.gen x), m)) sks msgs) ro r
      ).encs[i]?
      = some ((Encryption.deterministic_encrypt P (msgs.getD i [])
          (P.smul P.gen r) (P.smul (P.smul P.gen (sks.get ⟨i, hi⟩)) r) i).data) := by
    rw [encrypt_encs_getElem?, hz]
    rfl
  simp only [MultiRecipientEncryption.get_encryption, henc]
  show Except.ok ((Encryption.deterministic_encrypt P (msgs.getD i []) (P.smul P.gen r)
      (P.smul (P.smul P.gen (sks.get ⟨i, hi⟩)) r) i).decrypt_from_partial_decryption P
      (P.smul (P.smul P.gen r) (sks.get ⟨i, hi⟩)))
    = Except.ok (some (msgs.getD i []))
  rw [hP r (sks.get ⟨i, hi⟩)]
  exact congrArg Except.ok
    (partial_roundtrip P (msgs.getD i []) (P.smul P.gen r)
      (P.smul (P.smul P.gen (sks.get ⟨i, hi⟩)) r) i)

theorem C2_witness :
    concreteExternals.Lawful ∧
      ((MultiRecipientEncryption.encrypt concreteExternals
            (List.zipWith
              (fun x m => (PublicKey.mk (concreteExternals.smul concreteExternals.gen x), m))
              [1, 2] [[7], [8, 9]]) 0 3).get_encryption 1).map
          (fun e => (PrivateKey.mk (2 : Fin 5)).decrypt concreteExternals e)
        = Except.ok (some [8, 9]) :=
  ⟨concreteExternals_lawful,
    C2_multi_recipient_isolation concreteExternals concreteExternals_lawful
      [1, 2] [[7], [8, 9]] 0 3 1 (by decide) rfl⟩

theorem ddh_create_verify_ok [DecidableEq G] [DecidableEq RO] (P : Externals G S RO)
    (x : S) (a : G) (ro : RO) :
    (DdhTupleNizk.create P x a (P.smul P.gen x) (P.smul a x) ro).verify a
        (P.smul P.gen x) (P.smul a x) ro
      = Except.ok () := by
  simp [DdhTupleNizk.create, DdhTupleNizk.verify]

/-- C3: a recovery package created with the private key x for an encryption
produced for the public key x·G decrypts, via decrypt_with_recovery_package
under the same random-oracle instance, to the original message; a package
created with a private key whose public key is not the one used for
verification makes decrypt_with_recovery_package return the verification
error. -/
theorem C3_recovery_package [DecidableEq G] [DecidableEq RO] (P : Externals G S RO) :
    (P.Lawful → ∀ (x r : S) (m : List Byte) (info : Nat) (ro : RO),
        (PublicKey.mk (P.smul P.gen x)).decrypt_with_recovery_package P
            ((PrivateKey.mk x).create_recovery_package P
              (Encryption.deterministic_encrypt P m (P.smul P.gen r)
                (P.smul (P.smul P.gen x) r) info) ro)
            ro
            (Encryption.deterministic_encrypt P m (P.smul P.gen r)
              (P.smul (P.smul P.gen x) r) info)
          = Except.ok (some m))
    ∧ ∀ (x' : S) (X : G) (enc : Encryption G) (ro : RO),
        X ≠ P.smul P.gen x' →
          (PublicKey.mk X).decrypt_with_recovery_package P
              ((PrivateKey.mk x').create_recovery_package P enc ro) ro enc
            = Except.error FastCryptoError.InvalidProof := by
  constructor
  · intro hP x r m info ro
    unfold PublicKey.decrypt_with_recovery_package PrivateKey.create_recovery_package
    rw [show ∀ ek : G, P.smul ek (PrivateKey.mk x).sc = P.smul ek x from fun _ => rfl]
    rw [ddh_create_verify_ok P x
      (Encryption.deterministic_encrypt P m (P.smul P.gen r)
        (P.smul (P.smul P.gen x) r) info).ephemeral_key ro]
    show Except.ok ((Encryption.deterministic_encrypt P m (P.smul P.gen r)
        (P.smul (P.smul P.gen x) r) info).decrypt_from_partial_decryption P
        (P.smul (P.smul P.gen r) x))
      = Except.ok (some m)
    rw [hP r x]
    exact congrArg Except.ok
      (partial_roundtrip P m (P.smul P.gen r) (P.smul (P.smul P.gen x) r) info)
  · intro x' X enc ro hX
    unfold PublicKey.decrypt_with_recovery_package PrivateKey.create_recovery_package
    simp only [DdhTupleNizk.create, DdhTupleNizk.verify]
    rw [if_neg]
    · rfl
    · intro hc
      exact hX hc.2.1.symm

theorem C3_witness :
    (PublicKey.mk (concreteExternals.smul concreteExternals.gen 1)).decrypt_with_recovery_package
        concreteExternals
        ((PrivateKey.mk 1).create_recovery_package concreteExternals
          (Encryption.deterministic_encrypt concreteExternals [9]
            (concreteExternals.smul concreteExternals.gen 2)
            (concreteExternals.smul (concreteExternals.smul concreteExternals.gen 1) 2) 0) 5)
        5
        (Encryption.deterministic_encrypt concreteExternals [9]
          (concreteExternals.smul concreteExternals.gen 2)
          (concreteExternals.smul (concreteExternals.smul concreteExternals.gen 1) 2) 0)
      = Except.ok (some [9])
    ∧ (PublicKey.mk 3).decrypt_with_recovery_package concreteExternals
        ((PrivateKey.mk 1).create_recovery_package concreteExternals
          { ephemeral_key := 2, data := [7], hkdf_info := 0 } 5) 5
        { ephemeral_key := 2, data := [7], hkdf_info := 0 }
      = Except.error FastCryptoError.InvalidProof :=
  ⟨(C3_recovery_package concreteExternals).1 concreteExternals_lawful 1 2 [9] 0 5,
    (C3_recovery_package concreteExternals).2 1 3
      { ephemeral_key := 2, data := [7], hkdf_info := 0 } 5 (by decide)⟩

end Ecies
